import Mathlib

set_option maxRecDepth 8000

namespace Documentor

/-
Shallow embedding of the documentor-agent pipeline: the data model
(models.py, state.py), the response cache (llm_utils.py), the stage
functions (agent_nodes.py) and the stage graph loop (educator_agent.py).
Python semantics are modelled explicitly: Python list indexing (negative
wrap-around, IndexError as Option.none), str.strip/split/join/replace,
str(int), "{:02d}" formatting, dict lookup/update, and JSON persistence
with default=str coercion.
-/

/-! Python string and list primitives. -/

/-- Whitespace set of Python str.strip: space, tab, nl, cr, vtab, formfeed. -/
def pyIsSpace (c : Char) : Bool :=
  c.toNat = 32 || c.toNat = 9 || c.toNat = 10 || c.toNat = 13 || c.toNat = 11 || c.toNat = 12

/-- Model of Python str.strip on a character list. -/
def stripChars (l : List Char) : List Char :=
  ((l.dropWhile pyIsSpace).reverse.dropWhile pyIsSpace).reverse

/-- Model of Python str.strip(). -/
def pyStrip (s : String) : String := String.mk (stripChars s.data)

/-- Boolean check that the first list begins the second. -/
def listStarts : List Char → List Char → Bool
  | [], _ => true
  | _ :: _, [] => false
  | p :: ps, c :: cs => p == c && listStarts ps cs

/-- Model of Python str.startswith(pat). -/
def pyStartsWith (s pat : String) : Bool := listStarts pat.data s.data

/-- Model of Python str.endswith(pat). -/
def pyEndsWith (s pat : String) : Bool := listStarts pat.data.reverse s.data.reverse

/-- Model of Python sep.join(parts). -/
def pyJoin (sep : String) : List String → String
  | [] => ""
  | [x] => x
  | x :: xs => x ++ sep ++ pyJoin sep xs

/-- Model of Python s.replace(c, repl) for a one-character pattern. -/
def pyReplaceChar (s : String) (c : Char) (repl : String) : String :=
  String.mk (s.data.foldr (fun x acc => if x == c then repl.data ++ acc else x :: acc) [])

/-- Model of the Python slice s[:n]. -/
def pySliceTo (s : String) (n : Nat) : String := String.mk (s.data.take n)

/-- Model of Python list indexing with an int index: negative indices wrap
around from the end, and an out-of-range index (IndexError) is none. -/
def pyGet (l : List α) (i : Int) : Option α :=
  if 0 ≤ i then l[i.toNat]?
  else if 0 ≤ i + (l.length : Int) then l[(i + (l.length : Int)).toNat]? else none

/-- Model of Python list indexing with a nonnegative index. -/
def pyGetNat (l : List α) (n : Nat) : Option α := l[n]?

/-- Monadic map over Option, modelling a Python comprehension whose body
may raise IndexError. -/
def traverseOption (f : α → Option β) : List α → Option (List β)
  | [] => some []
  | x :: xs =>
    match f x, traverseOption f xs with
    | some y, some ys => some (y :: ys)
    | _, _ => none

/-- Insertion step for sorting ints in ascending order. -/
def insertSorted (x : Int) : List Int → List Int
  | [] => [x]
  | y :: ys => if x ≤ y then x :: y :: ys else y :: insertSorted x ys

/-- Model of Python sorted() on an int list. -/
def sortInts (l : List Int) : List Int := l.foldr insertSorted []

/-- Model of turning a Python list into a set and back: deduplication. -/
def pyDedup (l : List Int) : List Int :=
  l.foldl (fun acc x => if x ∈ acc then acc else acc ++ [x]) []

/-! Decimal rendering of numbers, modelling Python str(int) and the
"{:02d}" format used for chapter file names. -/

/-- Decimal digit character for a value below ten. -/
def decChar (d : Nat) : Char := Char.ofNat (48 + d)

/-- Fuel-driven decimal expansion; fuel n+1 always suffices for n. -/
def toDecimalAux : Nat → Nat → List Char
  | 0, _ => []
  | fuel + 1, n =>
    if n < 10 then [decChar n]
    else toDecimalAux fuel (n / 10) ++ [decChar (n % 10)]

/-- Decimal digit list of a natural number, most significant first. -/
def toDecimal (n : Nat) : List Char := toDecimalAux (n + 1) n

/-- Model of Python str(int) on a natural number. -/
def pyStrNat (n : Nat) : String := String.mk (toDecimal n)

/-- Model of Python str(int) on a possibly negative int. -/
def pyStrInt (i : Int) : String :=
  if i < 0 then "-" ++ pyStrNat i.natAbs else pyStrNat i.toNat

/-- Decode a digit list back to the number it denotes. -/
def ofDecimal (l : List Char) : Nat := l.foldl (fun a c => 10 * a + (c.toNat - 48)) 0

/-- Model of the Python format "{n:02d}": zero-padded to width two. -/
def pad2 (n : Nat) : List Char := if n < 10 then '0' :: toDecimal n else toDecimal n

/-- String form of the zero-padded chapter number. -/
def pad2Str (n : Nat) : String := String.mk (pad2 n)

/-! Python dict with string keys, preserving insertion order. -/

/-- Dict lookup. -/
def dictGet (t : List (String × String)) (k : String) : Option String :=
  match t with
  | [] => none
  | (k2, v) :: rest => if k2 = k then some v else dictGet rest k

/-- Dict update: replace in place or append. -/
def dictInsert (t : List (String × String)) (k v : String) : List (String × String) :=
  match t with
  | [] => [(k, v)]
  | (k2, v2) :: rest => if k2 = k then (k2, v) :: rest else (k2, v2) :: dictInsert rest k v

/-! SHA-256 over naturals, modelling hashlib.sha256(...).hexdigest() in
llm_utils.py. Words are naturals kept below 2^32 by explicit masking. -/

def mask32 : Nat := 4294967295

def add32 (a b : Nat) : Nat := (a + b) % 4294967296

def xor32 (a b : Nat) : Nat := Nat.xor a b

def land32 (a b : Nat) : Nat := Nat.land a b

def not32 (a : Nat) : Nat := Nat.xor a mask32

def rotr32 (r n : Nat) : Nat := Nat.lor (n >>> r) (Nat.land (n <<< (32 - r)) mask32)

/-- UTF-8 bytes of one character, modelling str.encode(). -/
def utf8Bytes (c : Char) : List Nat :=
  let n := c.toNat
  if n < 128 then [n]
  else if n < 2048 then [192 + n / 64, 128 + n % 64]
  else if n < 65536 then [224 + n / 4096, 128 + (n / 64) % 64, 128 + n % 64]
  else [240 + n / 262144, 128 + (n / 4096) % 64, 128 + (n / 64) % 64, 128 + n % 64]

/-- UTF-8 byte list of a string. -/
def strBytes (s : String) : List Nat := s.data.foldr (fun c acc => utf8Bytes c ++ acc) []

/-- Big-endian eight-byte rendering of the bit length. -/
def be64 (n : Nat) : List Nat :=
  [(n >>> 56) % 256, (n >>> 48) % 256, (n >>> 40) % 256, (n >>> 32) % 256,
   (n >>> 24) % 256, (n >>> 16) % 256, (n >>> 8) % 256, n % 256]

/-- SHA-256 message padding to a multiple of 64 bytes. -/
def sha256pad (msg : List Nat) : List Nat :=
  let L := msg.length
  let padZeros := (55 + 64 - L % 64) % 64
  msg ++ (128 :: List.replicate padZeros 0) ++ be64 (8 * L)

/-- Pack bytes into big-endian 32-bit words. -/
def toWords : List Nat → List Nat
  | b0 :: b1 :: b2 :: b3 :: rest => (((b0 * 256 + b1) * 256 + b2) * 256 + b3) :: toWords rest
  | _ => []

/-- The 64 SHA-256 round constants, written in decimal. -/
def shaK : List Nat :=
  [1116352408, 1899447441, 3049323471, 3921009573, 961987163, 1508970993,
   2453635748, 2870763221, 3624381080, 310598401, 607225278, 1426881987,
   1925078388, 2162078206, 2614888103, 3248222580, 3835390401, 4022224774,
   264347078, 604807628, 770255983, 1249150122, 1555081692, 1996064986,
   2554220882, 2821834349, 2952996808, 3210313671, 3336571891, 3584528711,
   113926993, 338241895, 666307205, 773529912, 1294757372, 1396182291,
   1695183700, 1986661051, 2177026350, 2456956037, 2730485921, 2820302411,
   3259730800, 3345764771, 3516065817, 3600352804, 4094571909, 275423344,
   430227734, 506948616, 659060556, 883997877, 958139571, 1322822218,
   1537002063, 1747873779, 1955562222, 2024104815, 2227730452, 2361852424,
   2428436474, 2756734187, 3204031479, 3329325298]

/-- The eight SHA-256 initial hash words, written in decimal. -/
def shaH0 : List Nat :=
  [1779033703, 3144134277, 1013904242, 2773480762, 1359893119, 2600822924,
   528734635, 1541459225]

/-- Extend the message schedule by one word. -/
def extendOne (ws : List Nat) : List Nat :=
  let i := ws.length
  let w15 := ws.getD (i - 15) 0
  let w2 := ws.getD (i - 2) 0
  let s0 := xor32 (rotr32 7 w15) (xor32 (rotr32 18 w15) (w15 >>> 3))
  let s1 := xor32 (rotr32 17 w2) (xor32 (rotr32 19 w2) (w2 >>> 10))
  ws ++ [add32 (ws.getD (i - 16) 0) (add32 s0 (add32 (ws.getD (i - 7) 0) s1))]

/-- Sixty-four word schedule of one 64-byte block. -/
def schedule (block : List Nat) : List Nat :=
  (List.range 48).foldl (fun ws _ => extendOne ws) (toWords block)

/-- One round of the SHA-256 compression function. -/
def shaStep (st : List Nat) (kw : Nat × Nat) : List Nat :=
  match st with
  | [a, b, c, d, e, f, g, h] =>
    let S1 := xor32 (rotr32 6 e) (xor32 (rotr32 11 e) (rotr32 25 e))
    let ch := xor32 (land32 e f) (land32 (not32 e) g)
    let temp1 := add32 h (add32 S1 (add32 ch (add32 kw.1 kw.2)))
    let S0 := xor32 (rotr32 2 a) (xor32 (rotr32 13 a) (rotr32 22 a))
    let maj := xor32 (land32 a b) (xor32 (land32 a c) (land32 b c))
    let temp2 := add32 S0 maj
    [add32 temp1 temp2, a, b, c, add32 d temp1, e, f, g]
  | other => other

/-- Compress one block into the running hash state. -/
def processBlock (H : List Nat) (block : List Nat) : List Nat :=
  let final := (shaK.zip (schedule block)).foldl shaStep H
  List.zipWith add32 H final

/-- Split the padded message into 64-byte blocks. -/
def chunks64 (l : List Nat) : List (List Nat) :=
  if h : l = [] then [] else l.take 64 :: chunks64 (l.drop 64)
termination_by l.length
decreasing_by
  simp only [List.length_drop]
  have : l.length ≠ 0 := fun hz => h (List.eq_nil_of_length_eq_zero hz)
  omega

/-- SHA-256 digest words of a byte message. -/
def sha256words (msg : List Nat) : List Nat :=
  (chunks64 (sha256pad msg)).foldl processBlock shaH0

/-- Lower-case hex character of a value below sixteen. -/
def hexChar (n : Nat) : Char := if n < 10 then decChar n else Char.ofNat (87 + n)

/-- Eight hex characters of one 32-bit word. -/
def wordToHex (w : Nat) : List Char :=
  ((List.range 8).reverse).foldr (fun k acc => hexChar ((w >>> (4 * k)) % 16) :: acc) []

/-- Model of hashlib.sha256(s.encode()).hexdigest(). -/
def sha256hex (s : String) : String :=
  String.mk ((sha256words (strBytes s)).foldr (fun w acc => wordToHex w ++ acc) [])

/-! The response cache, llm_utils.py. The cache key is computed at line 15:
hash_key = hashlib.sha256(llm_context.encode()).hexdigest() - a function of
the context text only. -/

/-- Cache key of a request, from llm_utils.py line 15. -/
def hashKeyOf (llm_context : String) : String := sha256hex llm_context

/-- Fingerprint of a full request payload (context text and optional schema
identity). The source hashes the context text only; the schema argument is
ignored exactly as in llm_utils.py line 15. -/
def fingerprint (llm_context : String) (schema : Option String) : String :=
  hashKeyOf llm_context

/-- Result object returned by the external service client: a plain message
when no schema is given, a schema-typed structured value otherwise. -/
inductive LLMResult where
  | message (content : String)
  | structured (schema : String) (payload : String)
deriving DecidableEq, Repr

/-- Model of Python str() on a result object, as applied by
json.dump(cache, f, default=str) when the object is not JSON-native. -/
def pyStrOf : LLMResult → String
  | .message c => "content=" ++ c
  | .structured ty payload => ty ++ "(" ++ payload ++ ")"

/-- Value as seen by a caller of call_llm: either a string decoded from the
JSON cache table on a hit, or the fresh result object on a miss. -/
inductive PyVal where
  | str (s : String)
  | obj (r : LLMResult)
deriving DecidableEq, Repr

/-- On-disk state of the cache table file agent_cache.json. -/
inductive CacheFile where
  | absent
  | unreadable
  | corrupt (raw : String)
  | table (t : List (String × String))
deriving DecidableEq, Repr

/-- Cache file state together with whether opening the file for writing
succeeds (a permission-denied or read-only file fails both ways). -/
structure CacheFS where
  file : CacheFile
  writeOk : Bool
deriving DecidableEq, Repr

/-- Whether os.path.exists(cache_file) holds. -/
def fileExists : CacheFile → Bool
  | .absent => false
  | _ => true

/-- Outcome of json.load on the cache file: some table on success, none when
open or json.load raises (caught by the source). -/
def readTable : CacheFile → Option (List (String × String))
  | .table t => some t
  | _ => none

/-- External service client behind call_llm. -/
structure LLMOracle where
  respond : String → Option String → LLMResult

/-- Outcome of one call_llm invocation: the returned value or the propagated
exception, the cache file afterwards, and how many external calls ran. -/
structure CallOutcome where
  ret : Except String PyVal
  fs : CacheFS
  calls : Nat
deriving Repr

/-- Embedding of call_llm (llm_utils.py lines 10-49). The lookup and the
re-read before storing catch read errors; the final open-for-write is not
guarded, so a failing write propagates. -/
def call_llm (llm_context : String) (ty : Option String) (use_cache : Bool)
    (o : LLMOracle) (fs : CacheFS) : CallOutcome :=
  let hash_key := hashKeyOf llm_context
  let hit : Option String :=
    if use_cache && fileExists fs.file then
      match readTable fs.file with
      | some cache => dictGet cache hash_key
      | none => none
    else none
  match hit with
  | some v => { ret := .ok (.str v), fs := fs, calls := 0 }
  | none =>
    let output := o.respond llm_context ty
    if use_cache then
      let cache := if fileExists fs.file then (readTable fs.file).getD [] else []
      let cache2 := dictInsert cache hash_key (pyStrOf output)
      if fs.writeOk then
        { ret := .ok (.obj output), fs := { file := .table cache2, writeOk := fs.writeOk }, calls := 1 }
      else
        { ret := .error "cache write failed", fs := fs, calls := 1 }
    else
      { ret := .ok (.obj output), fs := fs, calls := 1 }

/-! Data model, models.py and state.py. -/

/-- A file extracted from the project: relative path and text content. -/
structure FileRec where
  path : String
  content : String
deriving DecidableEq, Repr

/-- Component, models.py. -/
structure Component where
  name : String
  description : String
  files : List Int
deriving DecidableEq, Repr

instance : Inhabited Component := ⟨⟨"", "", []⟩⟩

/-- Relationship, models.py. -/
structure Relationship where
  from_component : Int
  to_component : Int
  label : String
deriving DecidableEq, Repr

/-- One docs_metadata row built by components_pages_planner. -/
structure DocMeta where
  title : String
  number : Nat
  component_index : Int
  file_name : String
deriving DecidableEq, Repr

/-- One pages_to_process entry built by components_pages_planner. -/
structure PageTask where
  component_num : Nat
  component_index : Int
  all_pages_names_listing : String
  prev_page : Option DocMeta
  next_page : Option DocMeta
  file_name : String
deriving DecidableEq, Repr

/-- Pipeline state, state.py. The pages field is append-only
(Annotated with operator.add). -/
structure State where
  files : List FileRec
  project_name : String
  max_components : Int
  components : List Component
  project_overview : String
  component_relationships : List Relationship
  use_cache : Bool
  ordered_components : List Int
  pages_to_process : List PageTask
  pages_processed : Nat
  pages : List String
  output_directory : String
deriving DecidableEq, Repr

/-- External analysis service as invoked directly by the stage functions in
agent_nodes.py: one field per structured-output shape the stages request.
Each field application is one external call. -/
structure ExternalService where
  segregate : String → List Component
  relate : String → String × List Relationship
  order : String → List Int
  page : String → String

/-! Stage contexts. The data-dependent parts mirror the f-strings of
agent_nodes.py; the constant instruction prose is condensed, as no stated
property depends on it. -/

/-- Context of component_segregator (agent_nodes.py lines 14-32). -/
def segregationContext (project_name file_context : String) (max_components : Int)
    (file_listing : String) : String :=
  "\nFor the project " ++ project_name ++ ":\n\nCodebase files context:\n" ++ file_context ++
  "\n\nAnalyse the codebase.\nIdentify the top 4-" ++ pyStrInt max_components ++
  " core most important abstractions or components.\n\nList of file indices and paths:\n" ++
  file_listing ++ "\n\nReturn the components in a structured format.\n    "

/-- Embedding of component_segregator (agent_nodes.py lines 8-47): builds the
file context, invokes the service once, stores the returned components. -/
def component_segregator (o : ExternalService) (st : State) : Option State × Nat :=
  let file_context := String.join (st.files.enum.map fun p =>
    "--- File Index " ++ pyStrNat p.1 ++ ": path: " ++ p.2.path ++ " ---\n" ++ p.2.content ++ "\n\n")
  let file_listing := String.join (st.files.enum.map fun p =>
    "- " ++ pyStrNat p.1 ++ " # " ++ p.2.path ++ "\n")
  let llm_context := segregationContext st.project_name file_context st.max_components file_listing
  (some { st with components := o.segregate llm_context }, 1)

/-- Context of component_relationship_analyser (agent_nodes.py lines 63-82). -/
def relationshipContext (project_name component_listing component_context : String) : String :=
  "\nBased on the following abstractions of the project " ++ project_name ++
  ":\n\nList of Component or Abstraction Indices and Names: \n" ++ component_listing ++
  "\n\nContext of Components or Abstractions:\n" ++ component_context ++
  "\n\nProvide an overview and a list of relationships.\n    "

/-- Embedding of component_relationship_analyser (agent_nodes.py lines
50-95). File indices are bounds-checked here (line 60): out-of-range ones
are skipped, so this stage never raises on them. -/
def component_relationship_analyser (o : ExternalService) (st : State) : Option State × Nat :=
  let component_context0 := "Identified Components or Abstractions:\n" ++
    String.join (st.components.enum.map fun p =>
      "- Index " ++ pyStrNat p.1 ++ ": " ++ p.2.name ++ " (Relevant file indices: [" ++
      pyJoin ", " (p.2.files.map pyStrInt) ++ "])\n    Description: " ++ p.2.description ++ "\n")
  let component_listing := String.join (st.components.enum.map fun p =>
    "- " ++ pyStrNat p.1 ++ " # " ++ p.2.name ++ "\n")
  let idxs := sortInts (pyDedup ((st.components.map (·.files)).flatten))
  let snippets := String.join (idxs.map fun i =>
    if i < 0 ∨ (st.files.length : Int) ≤ i then ""
    else match pyGet st.files i with
      | some f => "\n\n- " ++ pyStrInt i ++ " # " ++ f.path ++ "\n" ++ f.content
      | none => "")
  let component_context := component_context0 ++
    "Relevant File Snippets referenced by index and path:\n" ++ snippets
  let llm_context := relationshipContext st.project_name component_listing component_context
  let out := o.relate llm_context
  (some { st with project_overview := out.1, component_relationships := out.2 }, 1)

/-- Context of component_ordering (agent_nodes.py lines 102-127). -/
def orderingContext (project_name components_list project_overview relationships_list : String) :
    String :=
  "\n\nGiven the following project abstractions and their relationships for the project " ++
  project_name ++ ":\n\nComponents or Abstractions (Index # Name):\n\n" ++ components_list ++
  "\n\nProject Overview: \n" ++ project_overview ++ "\n\nRelationships between Components:\n\n" ++
  relationships_list ++ "\n\nNow provide the ordered list of component indices.\n\n"

/-- Embedding of component_ordering (agent_nodes.py lines 98-142). Line 100
dereferences components[rel.from_component] and components[rel.to_component]
with no bounds check: an out-of-range index raises IndexError (none). -/
def component_ordering (o : ExternalService) (st : State) : Option State × Nat :=
  let components_list := pyJoin "\n" (st.components.enum.map fun p =>
    "- " ++ pyStrNat p.1 ++ " # " ++ p.2.name)
  match traverseOption (fun rel =>
      match pyGet st.components rel.from_component, pyGet st.components rel.to_component with
      | some fc, some tc =>
        some ("- from " ++ fc.name ++ " to " ++ tc.name ++ ": (" ++ rel.label ++ ")")
      | _, _ => none) st.component_relationships with
  | none => (none, 0)
  | some parts =>
    let relationships_list := pyJoin "\n" parts
    let llm_context :=
      orderingContext st.project_name components_list st.project_overview relationships_list
    (some { st with ordered_components := o.order llm_context }, 1)

/-- Sanitized file-name stem, agent_nodes.py line 155 and lines 322-324:
non-alphanumeric characters replaced by an underscore, then lower-cased. -/
def sanitizeName (name : String) : String :=
  String.mk ((name.data.map fun c => if c.isAlphanum then c else '_').map Char.toLower)

/-- Chapter file name "{n:02d}_{sanitized}.md" for 1-based position n. -/
def fileNameFor (n : Nat) (name : String) : String :=
  pad2Str n ++ "_" ++ sanitizeName name ++ ".md"

/-- First planner loop (agent_nodes.py lines 148-156) building docs_metadata.
The guard at line 149 is the chained comparison 0 > component_index >=
len(components), i.e. (0 > ci) and (ci >= len), which is never true; it is
embedded exactly as written. The unguarded components[ci] then raises on an
out-of-range index (none). -/
def plannerMetaAux (components : List Component) : List (Nat × Int) → Option (List DocMeta)
  | [] => some []
  | (i, ci) :: rest =>
    if 0 > ci ∧ ci ≥ (components.length : Int) then plannerMetaAux components rest
    else
      match pyGet components ci, plannerMetaAux components rest with
      | some comp, some tail =>
        some ({ title := comp.name, number := i + 1, component_index := ci,
                file_name := fileNameFor (i + 1) comp.name } :: tail)
      | _, _ => none

/-- Second planner loop (agent_nodes.py lines 158-182) building
pages_to_process. It repeats the broken guard, builds (and discards) a
files_map whose unchecked file lookups can raise, and sets prev_page and
next_page to docs_metadata[ordered[i-1]] and docs_metadata[ordered[i+1]]:
indexed by the neighbouring raw component index, not by list position. -/
def plannerTasksAux (components : List Component) (files : List FileRec)
    (ordered : List Int) (docs : List DocMeta) (listing : String) :
    List (Nat × Int) → Option (List PageTask)
  | [] => some []
  | (i, ci) :: rest =>
    if 0 > ci ∧ ci ≥ (components.length : Int) then
      plannerTasksAux components files ordered docs listing rest
    else
      match pyGet components ci with
      | none => none
      | some comp =>
        match traverseOption (fun fi => pyGet files fi) comp.files with
        | none => none
        | some _files_map =>
          let prevStep : Option (Option DocMeta) :=
            if i > 0 then
              match pyGetNat ordered (i - 1) with
              | none => none
              | some pci =>
                match pyGet docs pci with
                | none => none
                | some pm => some (some pm)
            else some none
          let nextStep : Option (Option DocMeta) :=
            if i < ordered.length - 1 then
              match pyGetNat ordered (i + 1) with
              | none => none
              | some nci =>
                match pyGet docs nci with
                | none => none
                | some nm => some (some nm)
            else some none
          match prevStep, nextStep, pyGetNat docs i,
              plannerTasksAux components files ordered docs listing rest with
          | some prev, some next, some meta, some tail =>
            some ({ component_num := i + 1, component_index := ci,
                    all_pages_names_listing := listing, prev_page := prev,
                    next_page := next, file_name := meta.file_name } :: tail)
          | _, _, _, _ => none

/-- Embedding of components_pages_planner (agent_nodes.py lines 145-184). -/
def components_pages_planner (st : State) : Option State :=
  match plannerMetaAux st.components st.ordered_components.enum with
  | none => none
  | some docs =>
    let listing := pyJoin "\n" (docs.map fun m =>
      pyStrNat m.number ++ ". [" ++ m.title ++ "](" ++ m.file_name ++ ")")
    match plannerTasksAux st.components st.files st.ordered_components docs listing
        st.ordered_components.enum with
    | none => none
    | some tasks => some { st with pages_to_process := tasks, pages_processed := 0 }

/-- Embedding of route_based_on_pages_remaining (agent_nodes.py lines
187-191): true means pages remain. -/
def route_based_on_pages_remaining (st : State) : Bool :=
  st.pages_processed < st.pages_to_process.length

/-- Chapter heading tag "# Chapter {num}" checked at line 260. -/
def chapterTag (num : Nat) : String := "# Chapter " ++ pyStrNat num

/-- Full chapter heading "# Chapter {num}: {name}" built at line 259. -/
def chapterHeading (num : Nat) (name : String) : String :=
  chapterTag num ++ ": " ++ name

/-- Heading post-processing of component_page_processor (agent_nodes.py
lines 259-266). The guard checks only the "# Chapter {num}" tag, not the
component name. -/
def processPageContent (num : Nat) (name : String) (page_content : String) : String :=
  let page_heading := chapterHeading num name
  if pyStartsWith (pyStrip page_content) (chapterTag num) then page_content
  else
    match (pyStrip page_content).splitOn "\n" with
    | [] => page_heading ++ "\n\n" ++ page_content
    | l0 :: rest =>
      if pyStartsWith (pyStrip l0) "#" then pyJoin "\n" (page_heading :: rest)
      else page_heading ++ "\n\n" ++ page_content

/-- Context of component_page_processor (agent_nodes.py lines 202-249). -/
def pageContext (project_name : String) (comp : Component) (page : PageTask)
    (prev_pages_context files_context : String) : String :=
  "\nWrite a very beginner-friendly tutorial chapter for the project " ++ project_name ++
  " about the concept: \"" ++ comp.name ++ "\". This is Chapter " ++
  pyStrNat page.component_num ++ ".\n\nConcept Details:\n- Name: " ++ comp.name ++
  "\n- Description:\n" ++ comp.description ++ "\n\nComplete Tutorial Structure:\n" ++
  page.all_pages_names_listing ++ "\n\nContext from previous chapters:\n" ++
  (if prev_pages_context ≠ "" then prev_pages_context else "This is the first chapter.") ++
  "\n\nRelevant Code Snippets:\n" ++
  (if files_context ≠ "" then files_context else "No specific code snippets provided for this abstraction.") ++
  "\n\nNow, directly provide the Markdown output:\n"

/-- Embedding of component_page_processor (agent_nodes.py lines 194-268):
fetch the current page task, dereference its component and files (unchecked,
may raise), invoke the service once, post-process the heading, append the
page and advance the cursor. The second return component counts external
calls (1 on success, 0 when the stage raised before the call). -/
def component_page_processor (o : ExternalService) (st : State) : Option State × Nat :=
  match pyGetNat st.pages_to_process st.pages_processed with
  | none => (none, 0)
  | some page =>
    match pyGet st.components page.component_index with
    | none => (none, 0)
    | some comp =>
      match traverseOption (fun fi => pyGet st.files fi) comp.files with
      | none => (none, 0)
      | some fentries =>
        let files_context := pyJoin "\n" (fentries.map fun f =>
          "# " ++ f.path ++ "\n\n" ++ f.content)
        let prev_pages_context := pyJoin "\n--------\n" st.pages
        let llm_context := pageContext st.project_name comp page prev_pages_context files_context
        let page_content := o.page llm_context
        let processed := processPageContent page.component_num comp.name page_content
        (some { st with pages := st.pages ++ [processed],
                        pages_processed := st.pages_processed + 1 }, 1)

/-! Assembly stage, agent_nodes.py lines 271-359. -/

/-- Edge-label sanitization (lines 291-293): strip double quotes, replace
newlines by spaces. -/
def sanitizeEdgeLabel (label : String) : String :=
  pyReplaceChar (pyReplaceChar label '"' "") '\n' " "

/-- Edge-label rendering (lines 294-296): labels longer than 30 characters
become their first 27 characters plus a three-character ellipsis. -/
def renderEdgeLabel (label : String) : String :=
  let edge_label := sanitizeEdgeLabel label
  if edge_label.length > 30 then pySliceTo edge_label 27 ++ "..." else edge_label

/-- Mermaid dependency diagram (lines 273-300): one node per component,
one edge per relationship. -/
def mermaidDiagram (components : List Component) (rels : List Relationship) : String :=
  let nodes := components.enum.map fun p =>
    "    A" ++ pyStrNat p.1 ++ "[\"" ++ pyReplaceChar p.2.name '"' "" ++ "\"]"
  let edges := rels.map fun rel =>
    "    A" ++ pyStrInt rel.from_component ++ " -- \"" ++ renderEdgeLabel rel.label ++
    "\" --> A" ++ pyStrInt rel.to_component
  pyJoin "\n" ("flowchart TD" :: (nodes ++ edges))

/-- Fixed attribution footer appended to every written document (lines 332
and 342). -/
def attributionFooter : String := "---\n\nGenerated by Kritagya Khandelwal"

/-- Chapter document body (lines 328-332): the page content, padded to end
with a blank line, followed by the attribution footer. -/
def chapterBody (page : String) : String :=
  (if pyEndsWith page "\n\n" then page else page ++ "\n\n") ++ attributionFooter

/-- Index chapter-link lines (lines 317-326): one "{n}. [{name}]({file})"
line per position whose component index is in range and whose page exists;
other positions are skipped with a warning. -/
def indexChapterLinksAux (components : List Component) (pages : List String) :
    Nat → List Int → List String
  | _, [] => []
  | i, ci :: rest =>
    if 0 ≤ ci ∧ ci < (components.length : Int) ∧ i < pages.length then
      let comp := (pyGet components ci).getD default
      (pyStrNat (i + 1) ++ ". [" ++ comp.name ++ "](" ++ fileNameFor (i + 1) comp.name ++ ")\n")
        :: indexChapterLinksAux components pages (i + 1) rest
    else indexChapterLinksAux components pages (i + 1) rest

/-- Chapter files (lines 317-339): same guard and same filename as the link
lines, paired with the footer-extended chapter content. -/
def chapterFilesAux (components : List Component) (pages : List String) :
    Nat → List Int → List (String × String)
  | _, [] => []
  | i, ci :: rest =>
    if 0 ≤ ci ∧ ci < (components.length : Int) ∧ i < pages.length then
      let comp := (pyGet components ci).getD default
      (fileNameFor (i + 1) comp.name, chapterBody (pages.getD i ""))
        :: chapterFilesAux components pages (i + 1) rest
    else chapterFilesAux components pages (i + 1) rest

/-- Guarded traversal shared by the link lines and the chapter files: the
positions (with their components) that pass the guard of line 319. -/
def emittedChapters (components : List Component) (pages : List String) :
    Nat → List Int → List (Nat × Component)
  | _, [] => []
  | i, ci :: rest =>
    if 0 ≤ ci ∧ ci < (components.length : Int) ∧ i < pages.length then
      (i, (pyGet components ci).getD default) :: emittedChapters components pages (i + 1) rest
    else emittedChapters components pages (i + 1) rest

/-- Written output of the assembly stage. -/
structure AssemblyOut where
  output_path : String
  index_content : String
  chapter_files : List (String × String)
deriving DecidableEq, Repr

/-- Embedding of pages_to_documentation_directory (agent_nodes.py lines
271-359): index document plus one file per emitted chapter. -/
def pages_to_documentation_directory (st : State) : AssemblyOut :=
  let diagram := mermaidDiagram st.components st.component_relationships
  { output_path := "docs/" ++ st.project_name
    index_content :=
      "# Tutorial: " ++ st.project_name ++ "\n\n" ++ st.project_overview ++ "\n\n" ++
      "```mermaid\n" ++ diagram ++ "\n```\n\n" ++ "## Chapters\n\n" ++
      String.join (indexChapterLinksAux st.components st.pages 0 st.ordered_components) ++
      "\n\n" ++ attributionFooter
    chapter_files := chapterFilesAux st.components st.pages 0 st.ordered_components }

/-! The page loop and the stage graph, educator_agent.py lines 31-47:
planner, then component_page_processor repeatedly while
route_based_on_pages_remaining says pages remain, then assembly. -/

/-- Page loop with the number of remaining pages as structural fuel; the
processor advances the cursor by exactly one per iteration, so the fuel
equals the number of iterations the graph performs. Accumulates external
calls; none signals a stage exception. -/
def runPagesAux (o : ExternalService) : Nat → State → Option State × Nat
  | 0, st => (some st, 0)
  | fuel + 1, st =>
    if route_based_on_pages_remaining st then
      match component_page_processor o st with
      | (none, c) => (none, c)
      | (some st2, c) =>
        match runPagesAux o fuel st2 with
        | (r, c2) => (r, c + c2)
    else (some st, 0)

/-- Page loop from the current cursor to completion. -/
def runPages (o : ExternalService) (st : State) : Option State × Nat :=
  runPagesAux o (st.pages_to_process.length - st.pages_processed) st

/-- Whole-pipeline run. No node in agent_nodes.py opens the cache file
(each builds its ChatOpenAI client directly and invokes it), so the cache
file state is threaded through unchanged. Returns the final state with the
assembly output, the cache file state, and the total number of external
calls. -/
def runPipeline (o : ExternalService) (st0 : State) (fs : CacheFS) :
    Option (State × AssemblyOut) × CacheFS × Nat :=
  match component_segregator o st0 with
  | (none, c1) => (none, fs, c1)
  | (some st1, c1) =>
    match component_relationship_analyser o st1 with
    | (none, c2) => (none, fs, c1 + c2)
    | (some st2, c2) =>
      match component_ordering o st2 with
      | (none, c3) => (none, fs, c1 + c2 + c3)
      | (some st3, c3) =>
        match components_pages_planner st3 with
        | none => (none, fs, c1 + c2 + c3)
        | some st4 =>
          match runPages o st4 with
          | (none, c5) => (none, fs, c1 + c2 + c3 + c5)
          | (some st5, c5) =>
            (some (st5, pages_to_documentation_directory st5), fs, c1 + c2 + c3 + c5)

/-! Concrete fixtures used by the witnesses and counterexamples, and
decidable well-formedness predicates. -/

/-- A page plan is processable when every task's component index and every
file index of that component dereference successfully (exactly the lookups
component_page_processor performs). Plans produced by
components_pages_planner have this property, since the planner performs the
same dereferences. -/
def planValid (st : State) : Bool :=
  st.pages_to_process.all fun page =>
    match pyGet st.components page.component_index with
    | some comp => comp.files.all fun fi => (pyGet st.files fi).isSome
    | none => false

/-- next_page of the planner task at position i. -/
def taskNextAt (st : State) (i : Nat) : Option (Option DocMeta) :=
  (components_pages_planner st).bind fun st2 => (st2.pages_to_process[i]?).map (·.next_page)

/-- prev_page of the planner task at position i. -/
def taskPrevAt (st : State) (i : Nat) : Option (Option DocMeta) :=
  (components_pages_planner st).bind fun st2 => (st2.pages_to_process[i]?).map (·.prev_page)

/-- Deterministic external client used by concrete runs. -/
def cacheDemoOracle : LLMOracle :=
  ⟨fun _ ty => match ty with
    | some t => .structured t "data"
    | none => .message "hello"⟩

/-- Deterministic external service used by concrete pipeline runs. -/
def demoService : ExternalService where
  segregate := fun _ => [⟨"Core", "The core", [0]⟩]
  relate := fun _ => ("Overview", [⟨0, 0, "uses"⟩])
  order := fun _ => [0]
  page := fun _ => "body"

/-- Empty baseline state. -/
def emptyState : State where
  files := []
  project_name := "P"
  max_components := 5
  components := []
  project_overview := ""
  component_relationships := []
  use_cache := true
  ordered_components := []
  pages_to_process := []
  pages_processed := 0
  pages := []
  output_directory := ""

/-- Initial state of the concrete pipeline run: one input file, as in
end-to-end scenario A of the specification. -/
def demoInit : State := { emptyState with files := [⟨"a.py", "print(1)"⟩] }

/-- One component but a relationship naming component index 5. -/
def stOutOfRangeRel : State :=
  { emptyState with
    components := [⟨"A", "d", []⟩]
    component_relationships := [⟨5, 0, "uses"⟩] }

/-- One component but an ordering naming component index 5. -/
def stOutOfRangeOrder : State :=
  { emptyState with
    components := [⟨"A", "d", []⟩]
    ordered_components := [5] }

/-- A page task naming component index 7 with only one component present. -/
def stOutOfRangePage : State :=
  { emptyState with
    components := [⟨"A", "d", []⟩]
    pages_to_process := [⟨1, 7, "", none, none, "01_a.md"⟩] }

/-- Two components with the non-identity ordering [1, 0]. -/
def stSwap : State :=
  { emptyState with
    components := [⟨"A", "da", []⟩, ⟨"B", "db", []⟩]
    ordered_components := [1, 0] }

/-- State whose plan holds exactly one processable page. -/
def stOnePage : State :=
  { emptyState with
    files := [⟨"a.py", "print(1)"⟩]
    components := [⟨"Core", "The core", [0]⟩]
    ordered_components := [0]
    pages_to_process := [⟨1, 0, "1. [Core](01_core.md)", none, none, "01_core.md"⟩] }

/-! Helper lemmas. -/

theorem strData_append (a b : String) : (a ++ b).data = a.data ++ b.data := rfl

theorem strMk_data (l : List Char) : (String.mk l).data = l := rfl

theorem decChar_toNat (d : Nat) (h : d < 10) : (decChar d).toNat = 48 + d := by
  interval_cases d <;> rfl

theorem decChar_isDigit (d : Nat) (h : d < 10) : (decChar d).isDigit = true := by
  interval_cases d <;> decide

theorem ofDecimal_append_one (t : List Char) (c : Char) :
    ofDecimal (t ++ [c]) = 10 * ofDecimal t + (c.toNat - 48) := by
  unfold ofDecimal
  rw [List.foldl_append]
  rfl

theorem toDecimalAux_decode : ∀ (fuel n : Nat), n < fuel →
    ofDecimal (toDecimalAux fuel n) = n := by
  intro fuel
  induction fuel with
  | zero => intro n h; omega
  | succ f ih =>
    intro n h
    unfold toDecimalAux
    split
    · next h10 =>
      simp only [ofDecimal, List.foldl_cons, List.foldl_nil]
      rw [decChar_toNat n h10]
      omega
    · next h10 =>
      have hpos : 0 < n := by omega
      have hdiv : n / 10 < n := Nat.div_lt_self hpos (by omega)
      rw [ofDecimal_append_one, ih (n / 10) (by omega),
        decChar_toNat (n % 10) (Nat.mod_lt n (by omega))]
      omega

theorem ofDecimal_toDecimal (n : Nat) : ofDecimal (toDecimal n) = n :=
  toDecimalAux_decode (n + 1) n (Nat.lt_succ_self n)

theorem toDecimalAux_digit : ∀ (fuel n : Nat) (c : Char), c ∈ toDecimalAux fuel n →
    c.isDigit = true := by
  intro fuel
  induction fuel with
  | zero => intro n c h; simp [toDecimalAux] at h
  | succ f ih =>
    intro n c h
    unfold toDecimalAux at h
    split at h
    · next h10 =>
      simp at h
      subst h
      exact decChar_isDigit n h10
    · next h10 =>
      rcases List.mem_append.mp h with h1 | h1
      · exact ih _ c h1
      · simp at h1
        subst h1
        exact decChar_isDigit _ (Nat.mod_lt n (by omega))

theorem toDecimalAux_ne_nil : ∀ (fuel n : Nat), n < fuel → toDecimalAux fuel n ≠ [] := by
  intro fuel
  cases fuel with
  | zero => intro n h; omega
  | succ f =>
    intro n h
    unfold toDecimalAux
    split
    · simp
    · simp

theorem toDecimal_ne_nil (n : Nat) : toDecimal n ≠ [] :=
  toDecimalAux_ne_nil (n + 1) n (Nat.lt_succ_self n)

theorem toDecimal_digit (n : Nat) (c : Char) (h : c ∈ toDecimal n) : c.isDigit = true :=
  toDecimalAux_digit (n + 1) n c h

theorem ofDecimal_cons_zero (l : List Char) : ofDecimal ('0' :: l) = ofDecimal l := by
  simp only [ofDecimal, List.foldl_cons]
  congr 1

theorem ofDecimal_pad2 (n : Nat) : ofDecimal (pad2 n) = n := by
  unfold pad2
  split
  · rw [ofDecimal_cons_zero, ofDecimal_toDecimal]
  · exact ofDecimal_toDecimal n

theorem pad2_inj {n m : Nat} (h : pad2 n = pad2 m) : n = m := by
  have := congrArg ofDecimal h
  rwa [ofDecimal_pad2, ofDecimal_pad2] at this

theorem pad2_digit (n : Nat) (c : Char) (h : c ∈ pad2 n) : c.isDigit = true := by
  unfold pad2 at h
  split at h
  · rcases List.mem_cons.mp h with h1 | h1
    · subst h1; decide
    · exact toDecimal_digit n c h1
  · exact toDecimal_digit n c h

theorem digits_append_underscore :
    ∀ (p1 p2 r1 r2 : List Char), (∀ c ∈ p1, c.isDigit = true) → (∀ c ∈ p2, c.isDigit = true) →
      p1 ++ '_' :: r1 = p2 ++ '_' :: r2 → p1 = p2 := by
  intro p1
  induction p1 with
  | nil =>
    intro p2 r1 r2 _ h2 h
    cases p2 with
    | nil => rfl
    | cons b t =>
      exfalso
      have hb : b = '_' := by
        have := congrArg (fun l => l.head?) h
        simpa using this.symm
      have := h2 b (by simp)
      rw [hb] at this
      simp [Char.isDigit] at this
  | cons a t ih =>
    intro p2 r1 r2 h1 h2 h
    cases p2 with
    | nil =>
      exfalso
      have ha : a = '_' := by
        have := congrArg (fun l => l.head?) h
        simpa using this
      have := h1 a (by simp)
      rw [ha] at this
      simp [Char.isDigit] at this
    | cons b t2 =>
      simp only [List.cons_append, List.cons.injEq] at h
      have := ih t2 r1 r2 (fun c hc => h1 c (by simp [hc])) (fun c hc => h2 c (by simp [hc])) h.2
      rw [h.1, this]

theorem fileNameFor_data (n : Nat) (s : String) :
    (fileNameFor n s).data = pad2 n ++ '_' :: ((sanitizeName s).data ++ ['.', 'm', 'd']) := by
  show (pad2Str n ++ "_" ++ sanitizeName s ++ ".md").data = _
  rw [strData_append, strData_append, strData_append]
  show (pad2 n ++ ['_'] ++ (sanitizeName s).data ++ ['.', 'm', 'd']) = _
  simp

theorem fileNameFor_ne_of_ne {n m : Nat} (s t : String) (hnm : n ≠ m) :
    fileNameFor n s ≠ fileNameFor m t := by
  intro h
  have hd := congrArg String.data h
  rw [fileNameFor_data, fileNameFor_data] at hd
  exact hnm (pad2_inj (digits_append_underscore _ _ _ _ (pad2_digit n) (pad2_digit m) hd))

/-! Cache behavior lemmas for call_llm. -/

theorem dictGet_nil (k : String) : dictGet [] k = none := rfl

theorem dictGet_insert_self (t : List (String × String)) (k v : String) :
    dictGet (dictInsert t k v) k = some v := by
  induction t with
  | nil => simp [dictInsert, dictGet]
  | cons p rest ih =>
    obtain ⟨k2, v2⟩ := p
    by_cases hk : k2 = k
    · subst hk
      simp [dictInsert, dictGet]
    · simp [dictInsert, dictGet, hk, ih]

theorem call_llm_hit (ctx : String) (ty : Option String) (o : LLMOracle)
    (t : List (String × String)) (w : Bool) (v : String)
    (h : dictGet t (hashKeyOf ctx) = some v) :
    call_llm ctx ty true o ⟨.table t, w⟩ = ⟨.ok (.str v), ⟨.table t, w⟩, 0⟩ := by
  simp [call_llm, fileExists, readTable, h]

theorem call_llm_miss_store (ctx : String) (ty : Option String) (o : LLMOracle)
    (t : List (String × String)) (h : dictGet t (hashKeyOf ctx) = none) :
    call_llm ctx ty true o ⟨.table t, true⟩ =
      ⟨.ok (.obj (o.respond ctx ty)),
       ⟨.table (dictInsert t (hashKeyOf ctx) (pyStrOf (o.respond ctx ty))), true⟩, 1⟩ := by
  simp [call_llm, fileExists, readTable, h]

/-! Claim C4. -/

/-- Claim C4, counterexample: two requests with identical context text but
different schemas receive the same fingerprint, because the source hashes
only the context text (llm_utils.py line 15). -/
theorem c4_schema_not_hashed_cex :
    fingerprint "Analyse the codebase." (some "Components") =
      fingerprint "Analyse the codebase." (some "OrderedComponents") ∧
    ("Components" : String) ≠ "OrderedComponents" :=
  ⟨rfl, by decide⟩

/-- Claim C4 (amended): the cache fingerprint is the deterministic SHA-256
hex digest of the context text alone; the schema is not part of the hashed
payload, so any two requests with the same context text share a
fingerprint, whatever their schemas. -/
theorem c4_fingerprint_context_only (ctx : String) (s1 s2 : Option String) :
    fingerprint ctx s1 = fingerprint ctx s2 ∧ fingerprint ctx s1 = sha256hex ctx :=
  ⟨rfl, rfl⟩

/-! Claim C5. -/

/-- Claim C5, counterexample: with the cache table file unreadable and
unwritable (for example permission-denied), the lookup degrades to a miss
and the external call proceeds, but the unguarded cache write at
llm_utils.py lines 47-48 then raises, so the caller receives an error
instead of the result. -/
theorem c5_write_failure_propagates_cex :
    (call_llm "c" none true cacheDemoOracle ⟨.unreadable, false⟩).ret =
      .error "cache write failed" ∧
    (call_llm "c" none true cacheDemoOracle ⟨.unreadable, false⟩).calls = 1 :=
  ⟨rfl, rfl⟩

/-- Claim C5 (amended): read-side cache errors (absent, unreadable, or
corrupt table) degrade to a cache miss on both the lookup and the
store-side re-read — the external call proceeds and the caller receives its
result — provided the final cache-file write succeeds; a failing cache-file
write, however, propagates an error to the caller. -/
theorem c5_read_errors_degrade (ctx : String) (ty : Option String) (o : LLMOracle)
    (fs : CacheFS) (hw : fs.writeOk = true) (hr : readTable fs.file = none) :
    (call_llm ctx ty true o fs).ret = .ok (.obj (o.respond ctx ty)) ∧
    (call_llm ctx ty true o fs).calls = 1 := by
  obtain ⟨file, w⟩ := fs
  subst hw
  cases file <;> simp_all [call_llm, fileExists, readTable]

/-- Claim C5 witness: a concrete corrupt-but-writable cache file on which
the call degrades to a miss and the caller still receives the result. -/
theorem c5_read_errors_degrade_witness :
    (⟨.corrupt "bad", true⟩ : CacheFS).writeOk = true ∧
    readTable (CacheFile.corrupt "bad") = none ∧
    (call_llm "c" none true cacheDemoOracle ⟨.corrupt "bad", true⟩).ret =
      .ok (.obj (cacheDemoOracle.respond "c" none)) ∧
    (call_llm "c" none true cacheDemoOracle ⟨.corrupt "bad", true⟩).calls = 1 :=
  ⟨rfl, rfl,
    (c5_read_errors_degrade "c" none cacheDemoOracle ⟨.corrupt "bad", true⟩ rfl rfl).1,
    (c5_read_errors_degrade "c" none cacheDemoOracle ⟨.corrupt "bad", true⟩ rfl rfl).2⟩

/-! Claim C6. -/

/-- Claim C6, counterexample: storing a structured result and looking up the
same payload returns, with no external call, the str()-coerced JSON string
of the result — not a value equal to the stored structured result. -/
theorem c6_roundtrip_not_identity_cex :
    (call_llm "ctx" (some "Components") true cacheDemoOracle
        (call_llm "ctx" (some "Components") true cacheDemoOracle ⟨.table [], true⟩).fs).calls = 0 ∧
    (call_llm "ctx" (some "Components") true cacheDemoOracle
        (call_llm "ctx" (some "Components") true cacheDemoOracle ⟨.table [], true⟩).fs).ret =
      .ok (.str "Components(data)") ∧
    (call_llm "ctx" (some "Components") true cacheDemoOracle ⟨.table [], true⟩).ret =
      .ok (.obj (.structured "Components" "data")) ∧
    (PyVal.str "Components(data)") ≠ (PyVal.obj (.structured "Components" "data")) := by
  rw [call_llm_miss_store "ctx" (some "Components") cacheDemoOracle [] rfl]
  rw [call_llm_hit "ctx" (some "Components") cacheDemoOracle _ true _
    (dictGet_insert_self [] _ _)]
  refine ⟨rfl, rfl, rfl, by simp⟩

/-- Claim C6 (amended): store(payload, value) followed by lookup(payload)
with the same payload returns without invoking the external service, but it
returns the str()-serialized form of the value as decoded from the JSON
table (a plain string), not a value equal to the one stored; equality holds
only in serialized form, and in particular structured results come back as
strings. -/
theorem c6_roundtrip_serialized (ctx : String) (ty : Option String) (o : LLMOracle) :
    (call_llm ctx ty true o ⟨.table [], true⟩).calls = 1 ∧
    (call_llm ctx ty true o ⟨.table [], true⟩).ret = .ok (.obj (o.respond ctx ty)) ∧
    (call_llm ctx ty true o (call_llm ctx ty true o ⟨.table [], true⟩).fs).calls = 0 ∧
    (call_llm ctx ty true o (call_llm ctx ty true o ⟨.table [], true⟩).fs).ret =
      .ok (.str (pyStrOf (o.respond ctx ty))) := by
  rw [call_llm_miss_store ctx ty o [] rfl]
  rw [call_llm_hit ctx ty o _ true _ (dictGet_insert_self [] _ _)]
  exact ⟨rfl, rfl, rfl, rfl⟩

/-! Claim C9. -/

/-- Claim C9: after the quote and newline sanitization, a label longer than
30 characters is rendered as its first 27 characters followed by the
three-character ellipsis marker, for a total length of exactly 30, and a
label of length at most 30 is rendered unchanged. -/
theorem c9_edge_label_truncation (label : String) :
    ((sanitizeEdgeLabel label).length ≤ 30 →
      renderEdgeLabel label = sanitizeEdgeLabel label) ∧
    (30 < (sanitizeEdgeLabel label).length →
      renderEdgeLabel label = pySliceTo (sanitizeEdgeLabel label) 27 ++ "..." ∧
      (pySliceTo (sanitizeEdgeLabel label) 27).length = 27 ∧
      (renderEdgeLabel label).length = 30) := by
  constructor
  · intro h
    unfold renderEdgeLabel
    rw [if_neg (by omega)]
  · intro h
    have hr : renderEdgeLabel label = pySliceTo (sanitizeEdgeLabel label) 27 ++ "..." := by
      unfold renderEdgeLabel
      rw [if_pos (by omega)]
    have hlen : (sanitizeEdgeLabel label).data.length = (sanitizeEdgeLabel label).length := rfl
    have h27 : (pySliceTo (sanitizeEdgeLabel label) 27).length = 27 := by
      show ((sanitizeEdgeLabel label).data.take 27).length = 27
      rw [List.length_take]
      omega
    refine ⟨hr, h27, ?_⟩
    rw [hr]
    show ((pySliceTo (sanitizeEdgeLabel label) 27).data ++ ("..." : String).data).length = 30
    rw [List.length_append]
    have : (pySliceTo (sanitizeEdgeLabel label) 27).data.length = 27 := h27
    rw [this]
    decide

/-- Claim C9 witness: a concrete 40-character label is truncated to exactly
30 characters, and a concrete short label is rendered unchanged. -/
theorem c9_edge_label_truncation_witness :
    (sanitizeEdgeLabel "short label").length ≤ 30 ∧
    renderEdgeLabel "short label" = sanitizeEdgeLabel "short label" ∧
    30 < (sanitizeEdgeLabel "aaaaaaaaaaaaaaaaaaaaaaaaaaaaaaaaaaaaaaaa").length ∧
    (renderEdgeLabel "aaaaaaaaaaaaaaaaaaaaaaaaaaaaaaaaaaaaaaaa").length = 30 :=
  ⟨by decide, (c9_edge_label_truncation "short label").1 (by decide), by decide,
    ((c9_edge_label_truncation "aaaaaaaaaaaaaaaaaaaaaaaaaaaaaaaaaaaaaaaa").2 (by decide)).2.2⟩

/-! String stripping and heading lemmas for claim C8. -/

theorem pyStrip_data (s : String) : (pyStrip s).data = stripChars s.data := rfl

theorem listStarts_spec : ∀ (p l : List Char), listStarts p l = true → ∃ t, p ++ t = l := by
  intro p
  induction p with
  | nil => intro l _; exact ⟨l, rfl⟩
  | cons a ps ih =>
    intro l h
    cases l with
    | nil => simp [listStarts] at h
    | cons c cs =>
      simp only [listStarts, Bool.and_eq_true, beq_iff_eq] at h
      obtain ⟨t, ht⟩ := ih cs h.2
      exact ⟨t, by simp [h.1, ht]⟩

theorem dropWhileAppend (p : α → Bool) (l1 l2 : List α) :
    (l1 ++ l2).dropWhile p =
      if (l1.dropWhile p).isEmpty then l2.dropWhile p else l1.dropWhile p ++ l2 := by
  induction l1 with
  | nil => simp
  | cons a t ih =>
    by_cases hpa : p a = true
    · simpa [List.dropWhile_cons, hpa] using ih
    · simp [List.dropWhile_cons, hpa]

theorem prefix_stripChars (c0 d : Char) (mid r : List Char)
    (h0 : pyIsSpace c0 = false) (hd : pyIsSpace d = false) :
    ∃ t, (c0 :: (mid ++ [d])) ++ t = stripChars ((c0 :: (mid ++ [d])) ++ r) := by
  unfold stripChars
  have h1 : ((c0 :: (mid ++ [d])) ++ r).dropWhile pyIsSpace = (c0 :: (mid ++ [d])) ++ r := by
    rw [List.cons_append, List.dropWhile_cons, h0]
    simp
  rw [h1]
  have h2 : ((c0 :: (mid ++ [d])) ++ r).reverse = r.reverse ++ (d :: (mid.reverse ++ [c0])) := by
    simp
  rw [h2, dropWhileAppend]
  by_cases he : (r.reverse.dropWhile pyIsSpace).isEmpty
  · rw [if_pos he, List.dropWhile_cons, hd]
    refine ⟨[], ?_⟩
    simp
  · rw [if_neg he]
    refine ⟨(r.reverse.dropWhile pyIsSpace).reverse, ?_⟩
    rw [List.reverse_append]
    simp

theorem decChar_not_space (d : Nat) (h : d < 10) : pyIsSpace (decChar d) = false := by
  interval_cases d <;> decide

theorem toDecimalAux_not_space : ∀ (fuel n : Nat) (c : Char), c ∈ toDecimalAux fuel n →
    pyIsSpace c = false := by
  intro fuel
  induction fuel with
  | zero => intro n c h; simp [toDecimalAux] at h
  | succ f ih =>
    intro n c h
    unfold toDecimalAux at h
    split at h
    · next h10 =>
      simp at h
      subst h
      exact decChar_not_space n h10
    · next h10 =>
      rcases List.mem_append.mp h with h1 | h1
      · exact ih _ c h1
      · simp at h1
        subst h1
        exact decChar_not_space _ (Nat.mod_lt n (by omega))

theorem toDecimal_not_space (n : Nat) (c : Char) (h : c ∈ toDecimal n) : pyIsSpace c = false :=
  toDecimalAux_not_space (n + 1) n c h

theorem exists_concat_of_ne_nil : ∀ (l : List Char), l ≠ [] → ∃ t a, l = t ++ [a] ∧ a ∈ l := by
  intro l
  induction l with
  | nil => intro h; exact absurd rfl h
  | cons x xs ih =>
    intro _
    cases xs with
    | nil => exact ⟨[], x, rfl, by simp⟩
    | cons y ys =>
      obtain ⟨t, a, ht, ha⟩ := ih (by simp)
      exact ⟨x :: t, a, by rw [List.cons_append, ← ht], by simp [ha]⟩

theorem chapterTag_decomp (num : Nat) :
    ∃ mid dl, (chapterTag num).data = '#' :: (mid ++ [dl]) ∧ pyIsSpace dl = false := by
  obtain ⟨t, a, hta, hmem⟩ := exists_concat_of_ne_nil (toDecimal num) (toDecimal_ne_nil num)
  refine ⟨(" Chapter " : String).data ++ t, a, ?_, toDecimal_not_space num a hmem⟩
  show ("# Chapter " ++ pyStrNat num).data = _
  rw [strData_append]
  show ('#' :: (" Chapter " : String).data) ++ toDecimal num = _
  rw [hta]
  simp

theorem tag_strip_of_append (num : Nat) (r : List Char) :
    ∃ t, (chapterTag num).data ++ t = stripChars ((chapterTag num).data ++ r) := by
  obtain ⟨mid, dl, hdec, hdl⟩ := chapterTag_decomp num
  rw [hdec]
  exact prefix_stripChars '#' dl mid r (by decide) hdl

theorem chapterHeading_data (num : Nat) (name : String) :
    (chapterHeading num name).data = (chapterTag num).data ++ ((": " : String).data ++ name.data) := by
  show ((chapterTag num ++ ": ") ++ name).data = _
  rw [strData_append, strData_append]
  simp

theorem pyJoin_cons_data (sep h : String) (rest : List String) :
    ∃ t, (pyJoin sep (h :: rest)).data = h.data ++ t := by
  cases rest with
  | nil => exact ⟨[], by simp [pyJoin]⟩
  | cons x xs =>
    refine ⟨sep.data ++ (pyJoin sep (x :: xs)).data, ?_⟩
    show ((h ++ sep) ++ pyJoin sep (x :: xs)).data = _
    rw [strData_append, strData_append]
    simp

theorem processPageContent_cases (num : Nat) (name content : String) :
    (processPageContent num name content = content ∧
      pyStartsWith (pyStrip content) (chapterTag num) = true) ∨
    (∃ rest, processPageContent num name content =
      pyJoin "\n" (chapterHeading num name :: rest)) ∨
    processPageContent num name content = chapterHeading num name ++ "\n\n" ++ content := by
  unfold processPageContent
  by_cases hhit : pyStartsWith (pyStrip content) (chapterTag num) = true
  · left
    exact ⟨by rw [if_pos hhit], hhit⟩
  · right
    rw [if_neg hhit]
    cases hsplit : (pyStrip content).splitOn "\n" with
    | nil => right; rfl
    | cons l0 rest =>
      by_cases hl0 : pyStartsWith (pyStrip l0) "#" = true
      · left
        refine ⟨rest, ?_⟩
        show (if pyStartsWith (pyStrip l0) "#" = true
            then pyJoin "\n" (chapterHeading num name :: rest)
            else chapterHeading num name ++ "\n\n" ++ content) = _
        rw [if_pos hl0]
      · right
        show (if pyStartsWith (pyStrip l0) "#" = true
            then pyJoin "\n" (chapterHeading num name :: rest)
            else chapterHeading num name ++ "\n\n" ++ content) = _
        rw [if_neg hl0]

/-! Claim C8. -/

/-- Claim C8, counterexample: the service returns a page whose first line is
the heading of the right chapter number but the wrong component name. The
guard at line 260 checks only the "# Chapter {num}" tag, so nothing is
rewritten and the stored page does not begin with the expected heading
"# Chapter 1: Bar". -/
theorem c8_heading_name_unchecked_cex :
    processPageContent 1 "Bar" "# Chapter 1: Foo" = "# Chapter 1: Foo" ∧
    pyStartsWith "# Chapter 1: Foo" (chapterHeading 1 "Bar") = false ∧
    chapterHeading 1 "Bar" = "# Chapter 1: Bar" := by
  refine ⟨?_, by decide, by decide⟩
  decide

/-- Claim C8 (amended): the stored page, after stripping, always begins with
the chapter-number tag "# Chapter {N}" — the guard checks only that tag, not
the component name; whenever the stripped returned text does not already
begin with that tag, the first line is rewritten or injected to the full
heading "# Chapter {N}: {C}", so the stored page then begins with the full
heading; and every written chapter document ends with the fixed attribution
footer. -/
theorem c8_heading_tag_and_attribution (num : Nat) (name content page : String) :
    (∃ t, (chapterTag num).data ++ t = (pyStrip (processPageContent num name content)).data) ∧
    (pyStartsWith (pyStrip content) (chapterTag num) = false →
      ∃ t, (chapterHeading num name).data ++ t = (processPageContent num name content).data) ∧
    (∃ t, t ++ attributionFooter.data = (chapterBody page).data) := by
  refine ⟨?_, ?_, ?_⟩
  · rcases processPageContent_cases num name content with ⟨heq, hhit⟩ | ⟨rest, heq⟩ | heq
    · rw [heq, pyStrip_data]
      exact listStarts_spec _ _ hhit
    · rw [heq, pyStrip_data]
      obtain ⟨t, ht⟩ := pyJoin_cons_data "\n" (chapterHeading num name) rest
      rw [ht, chapterHeading_data, List.append_assoc]
      exact tag_strip_of_append num _
    · rw [heq, pyStrip_data]
      have hdata : (chapterHeading num name ++ "\n\n" ++ content).data =
          (chapterTag num).data ++
            (((": " : String).data ++ name.data) ++
              (("\n\n" : String).data ++ content.data)) := by
        rw [strData_append, strData_append, chapterHeading_data]
        simp
      rw [hdata]
      exact tag_strip_of_append num _
  · intro hmiss
    rcases processPageContent_cases num name content with ⟨heq, hhit⟩ | ⟨rest, heq⟩ | heq
    · rw [hhit] at hmiss
      cases hmiss
    · rw [heq]
      obtain ⟨t, ht⟩ := pyJoin_cons_data "\n" (chapterHeading num name) rest
      exact ⟨t, ht.symm⟩
    · rw [heq]
      refine ⟨("\n\n" : String).data ++ content.data, ?_⟩
      rw [strData_append, strData_append]
      simp
  · refine ⟨(if pyEndsWith page "\n\n" then page else page ++ "\n\n").data, ?_⟩
    exact (strData_append _ _).symm

/-- Claim C8 witness: on the concrete returned text "hello world" (which
does not begin with the chapter tag) the first line is injected to the full
heading "# Chapter 3: Core". -/
theorem c8_heading_tag_and_attribution_witness :
    pyStartsWith (pyStrip "hello world") (chapterTag 3) = false ∧
    (∃ t, (chapterHeading 3 "Core").data ++ t =
      (processPageContent 3 "Core" "hello world").data) :=
  ⟨by decide, (c8_heading_tag_and_attribution 3 "Core" "hello world" "p").2.1 (by decide)⟩

/-! Assembly correspondence lemmas for claim C10. -/

theorem indexChapterLinksAux_eq_map (components : List Component) (pages : List String) :
    ∀ (i : Nat) (l : List Int),
      indexChapterLinksAux components pages i l =
        (emittedChapters components pages i l).map fun e =>
          pyStrNat (e.1 + 1) ++ ". [" ++ e.2.name ++ "](" ++
            fileNameFor (e.1 + 1) e.2.name ++ ")\n" := by
  intro i l
  induction l generalizing i with
  | nil => rfl
  | cons ci rest ih =>
    unfold indexChapterLinksAux emittedChapters
    by_cases hg : 0 ≤ ci ∧ ci < (components.length : Int) ∧ i < pages.length
    · rw [if_pos hg, if_pos hg, List.map_cons, ih]
    · rw [if_neg hg, if_neg hg, ih]

theorem chapterFilesAux_eq_map (components : List Component) (pages : List String) :
    ∀ (i : Nat) (l : List Int),
      chapterFilesAux components pages i l =
        (emittedChapters components pages i l).map fun e =>
          (fileNameFor (e.1 + 1) e.2.name, chapterBody (pages.getD e.1 "")) := by
  intro i l
  induction l generalizing i with
  | nil => rfl
  | cons ci rest ih =>
    unfold chapterFilesAux emittedChapters
    by_cases hg : 0 ≤ ci ∧ ci < (components.length : Int) ∧ i < pages.length
    · rw [if_pos hg, if_pos hg, List.map_cons, ih]
    · rw [if_neg hg, if_neg hg, ih]

theorem emittedChapters_pos_ge (components : List Component) (pages : List String) :
    ∀ (l : List Int) (i : Nat) (e : Nat × Component),
      e ∈ emittedChapters components pages i l → i ≤ e.1 := by
  intro l
  induction l with
  | nil => intro i e h; simp [emittedChapters] at h
  | cons ci rest ih =>
    intro i e h
    unfold emittedChapters at h
    split at h
    · rcases List.mem_cons.mp h with h1 | h1
      · rw [h1]
      · have := ih (i + 1) e h1
        omega
    · have := ih (i + 1) e h
      omega

theorem emittedChapters_pairwise (components : List Component) (pages : List String) :
    ∀ (l : List Int) (i : Nat),
      (emittedChapters components pages i l).Pairwise (fun a b => a.1 < b.1) := by
  intro l
  induction l with
  | nil => intro i; simp [emittedChapters]
  | cons ci rest ih =>
    intro i
    unfold emittedChapters
    split
    · refine List.Pairwise.cons ?_ (ih (i + 1))
      intro b hb
      have := emittedChapters_pos_ge components pages rest (i + 1) b hb
      omega
    · exact ih (i + 1)

/-! Claim C10. -/

/-- Claim C10: the numbered index links and the written chapter files arise
as maps over the same guarded traversal of the ordering — the k-th link line
embeds exactly the k-th written file name, so a link is emitted precisely
when the corresponding file is written, from the same guarded branch — and
the written file names are pairwise distinct because each embeds its own
1-based position, zero-padded, as a digits-only prefix before the first
underscore. -/
theorem c10_links_files_correspondence (components : List Component) (ordered : List Int)
    (pages : List String) :
    indexChapterLinksAux components pages 0 ordered =
      (emittedChapters components pages 0 ordered).map (fun e =>
        pyStrNat (e.1 + 1) ++ ". [" ++ e.2.name ++ "](" ++
          fileNameFor (e.1 + 1) e.2.name ++ ")\n") ∧
    chapterFilesAux components pages 0 ordered =
      (emittedChapters components pages 0 ordered).map (fun e =>
        (fileNameFor (e.1 + 1) e.2.name, chapterBody (pages.getD e.1 ""))) ∧
    ((chapterFilesAux components pages 0 ordered).map Prod.fst).Pairwise (· ≠ ·) := by
  refine ⟨indexChapterLinksAux_eq_map components pages 0 ordered,
    chapterFilesAux_eq_map components pages 0 ordered, ?_⟩
  rw [chapterFilesAux_eq_map, List.map_map, List.pairwise_map]
  refine (emittedChapters_pairwise components pages ordered 0).imp ?_
  intro a b hab
  exact fileNameFor_ne_of_ne _ _ (by omega)

/-! Claim C2. -/

/-- Claim C2: out-of-range indices returned by the service crash three of
the four consuming stages instead of being skipped. A relationship index of
5 with one component makes component_ordering raise (line 100); an ordering
entry 5 with one component makes components_pages_planner raise, because the
chained guard 0 > ci >= len at lines 149 and 160 is never true; a page task
naming component 7 makes component_page_processor raise (line 197). Only the
assembly stage skips: with the same out-of-range ordering it completes and
writes no chapter file. -/
theorem c2_out_of_range_crashes :
    (component_ordering demoService stOutOfRangeRel).1 = none ∧
    components_pages_planner stOutOfRangeOrder = none ∧
    (component_page_processor demoService stOutOfRangePage).1 = none ∧
    (pages_to_documentation_directory
      { stOutOfRangeOrder with pages := ["body"] }).chapter_files = [] :=
  ⟨rfl, rfl, rfl, rfl⟩

/-! Claim C3. -/

/-- Claim C3: with components [A, B] and the non-identity ordering [1, 0],
the planner links neighbours by raw component index, not by list position.
The plan entry at position 0 gets next_page equal to the metadata row at
position 0 (its own row, number 1, file 01_b.md) instead of the row at
position 1 (number 2, file 02_a.md); symmetrically the entry at position 1
gets prev_page equal to its own row. -/
theorem c3_neighbor_links_misindexed :
    taskNextAt stSwap 0 = some (some ⟨"B", 1, 1, "01_b.md"⟩) ∧
    taskNextAt stSwap 0 ≠ some (some ⟨"A", 2, 0, "02_a.md"⟩) ∧
    taskPrevAt stSwap 1 = some (some ⟨"A", 2, 0, "02_a.md"⟩) ∧
    taskPrevAt stSwap 1 ≠ some (some ⟨"B", 1, 1, "01_b.md"⟩) :=
  ⟨rfl, by decide, rfl, by decide⟩

/-! Loop lemmas for claim C7. -/

theorem traverseOption_isSome_of_all (f : α → Option β) :
    ∀ (l : List α), (∀ x ∈ l, (f x).isSome = true) → ∃ ys, traverseOption f l = some ys := by
  intro l
  induction l with
  | nil => exact fun _ => ⟨[], rfl⟩
  | cons x xs ih =>
    intro h
    obtain ⟨y, hy⟩ := Option.isSome_iff_exists.mp (h x (by simp))
    obtain ⟨ys, hys⟩ := ih fun a ha => h a (by simp [ha])
    exact ⟨y :: ys, by simp [traverseOption, hy, hys]⟩

theorem processor_advances (o : ExternalService) (st : State) (hv : planValid st = true)
    (hlt : st.pages_processed < st.pages_to_process.length) :
    ∃ st2, component_page_processor o st = (some st2, 1) ∧
      st2.pages_to_process = st.pages_to_process ∧
      st2.pages_processed = st.pages_processed + 1 ∧
      st2.components = st.components ∧ st2.files = st.files := by
  have hpage : pyGetNat st.pages_to_process st.pages_processed =
      some st.pages_to_process[st.pages_processed] := List.getElem?_eq_getElem hlt
  have hmem : st.pages_to_process[st.pages_processed] ∈ st.pages_to_process :=
    List.getElem_mem hlt
  have hok := List.all_eq_true.mp hv _ hmem
  simp only at hok
  cases hcomp : pyGet st.components st.pages_to_process[st.pages_processed].component_index with
  | none => rw [hcomp] at hok; cases hok
  | some comp =>
    rw [hcomp] at hok
    obtain ⟨ys, hys⟩ := traverseOption_isSome_of_all (fun fi => pyGet st.files fi) comp.files
      (List.all_eq_true.mp hok)
    refine ⟨{ st with
        pages := st.pages ++
          [processPageContent st.pages_to_process[st.pages_processed].component_num comp.name
            (o.page (pageContext st.project_name comp st.pages_to_process[st.pages_processed]
              (pyJoin "\n--------\n" st.pages)
              (pyJoin "\n" (ys.map fun f => "# " ++ f.path ++ "\n\n" ++ f.content))))],
        pages_processed := st.pages_processed + 1 },
      ?_, rfl, rfl, rfl, rfl⟩
    simp only [component_page_processor, hpage, hcomp, hys]

theorem runPagesAux_exact (o : ExternalService) :
    ∀ (fuel : Nat) (st : State), planValid st = true →
      st.pages_to_process.length = st.pages_processed + fuel →
      ∃ st2, runPagesAux o fuel st = (some st2, fuel) ∧
        st2.pages_processed = st.pages_to_process.length ∧
        st2.pages_to_process = st.pages_to_process := by
  intro fuel
  induction fuel with
  | zero =>
    intro st hv hlen
    exact ⟨st, rfl, by omega, rfl⟩
  | succ f ih =>
    intro st hv hlen
    have hroute : route_based_on_pages_remaining st = true := by
      unfold route_based_on_pages_remaining
      simp only [decide_eq_true_eq]
      omega
    obtain ⟨st2, hstep, htasks, hproc, hcomps, hfiles⟩ := processor_advances o st hv (by omega)
    have hv2 : planValid st2 = true := by
      unfold planValid at hv ⊢
      rw [htasks, hcomps, hfiles]
      exact hv
    obtain ⟨st3, hrec, hp3, ht3⟩ := ih st2 hv2 (by rw [htasks, hproc]; omega)
    refine ⟨st3, ?_, by rw [hp3, htasks], by rw [ht3, htasks]⟩
    show (if route_based_on_pages_remaining st = true then
        match component_page_processor o st with
        | (none, c) => (none, c)
        | (some st2, c) =>
          match runPagesAux o f st2 with
          | (r, c2) => (r, c + c2)
      else (some st, 0)) = (some st3, f + 1)
    rw [if_pos hroute, hstep]
    show (match runPagesAux o f st2 with | (r, c2) => (r, 1 + c2)) = (some st3, f + 1)
    rw [hrec]
    show (some st3, 1 + f) = (some st3, f + 1)
    rw [Nat.add_comm 1 f]

/-! Claim C7. -/

/-- Claim C7: starting from a freshly planned state (cursor zero) whose plan
dereferences resolve, the page loop runs exactly one external call per
planned page, halts, and ends with pages_processed equal to the number of
planned pages; in particular a plan of zero pages makes zero calls. -/
theorem c7_pageloop_exact_calls (o : ExternalService) (st : State)
    (hv : planValid st = true) (h0 : st.pages_processed = 0) :
    ∃ st2, runPages o st = (some st2, st.pages_to_process.length) ∧
      st2.pages_processed = st.pages_to_process.length ∧
      st2.pages_to_process = st.pages_to_process := by
  have h := runPagesAux_exact o st.pages_to_process.length st hv (by omega)
  unfold runPages
  rw [h0, Nat.sub_zero]
  exact h

/-- Claim C7 witness: the loop on a concrete one-page plan performs exactly
one call and halts with cursor one. -/
theorem c7_pageloop_exact_calls_witness :
    planValid stOnePage = true ∧ stOnePage.pages_processed = 0 ∧
    ∃ st2, runPages demoService stOnePage = (some st2, stOnePage.pages_to_process.length) ∧
      st2.pages_processed = stOnePage.pages_to_process.length ∧
      st2.pages_to_process = stOnePage.pages_to_process :=
  ⟨by decide, rfl, c7_pageloop_exact_calls demoService stOnePage (by decide) rfl⟩

/-! Claim C1. -/

/-- Claim C1: for every cache file state — including a table pre-populated
with every fingerprint — the concrete pipeline run issues four external
calls (segregation, relationship, ordering, one page), not zero, and leaves
the cache file untouched: no stage of agent_nodes.py performs a cache
lookup, each constructs its client directly and invokes it. -/
theorem c1_stages_never_consult_cache (fs : CacheFS) :
    (runPipeline demoService demoInit fs).2.2 = 4 ∧
    (runPipeline demoService demoInit fs).2.1 = fs ∧
    (runPipeline demoService demoInit fs).1.isSome = true :=
  ⟨rfl, rfl, rfl⟩

end Documentor
